import Mathlib

/-!
Formal model of the point-to-point binary transport implemented in
`src/comm/server.cpp` (C++ namespace `comm`): the byte-exact transfer
primitives, the typed payload codecs for 4-byte unsigned scalars,
length-prefixed vectors and fixed arrays, connection close, and the
sent-bytes accounting.

Bytes are modelled as natural numbers; multi-byte integers are laid out in
little-endian order, the native byte order of the host the code targets
(the wire example `0C 00 00 00 00 00 00 00` for a byte count of 12 fixes
this orientation).
-/

namespace Comm

/-- Little-endian value of a byte list:
`bytesToNatLE [b0, b1, b2] = b0 + 256*b1 + 256^2*b2`. -/
def bytesToNatLE (bs : List Nat) : Nat :=
  bs.foldr (fun b acc => b + 256 * acc) 0

/-- The 4 raw bytes of a `uint32_t` value in native (little-endian) order,
as laid out in memory and handed to `send` via `reinterpret_cast`. -/
def u32le (v : Nat) : List Nat :=
  [v % 256, v / 2 ^ 8 % 256, v / 2 ^ 16 % 256, v / 2 ^ 24 % 256]

/-- The 8 raw bytes of a `std::size_t` (64-bit) value in native
(little-endian) order. -/
def u64le (v : Nat) : List Nat :=
  [v % 256, v / 2 ^ 8 % 256, v / 2 ^ 16 % 256, v / 2 ^ 24 % 256,
   v / 2 ^ 32 % 256, v / 2 ^ 40 % 256, v / 2 ^ 48 % 256, v / 2 ^ 56 % 256]

/-- Reinterpret a raw byte buffer as `n` consecutive `uint32_t` values
(4 bytes each, native order), as `RecvVector` does with the buffer of
`r_vector.data()`. -/
def decodeU32s : Nat → List Nat → List Nat
  | 0, _ => []
  | n + 1, bs => bytesToNatLE (bs.take 4) :: decodeU32s n (bs.drop 4)

/-- Modelled from the spec: the loop body shared by `internal::SendData`
and `internal::RecvData` (spec §4.1, `SendAll`/`RecvAll`), whose definition
is not under `src/` (only their declarations and callers are). The OS
`send`/`recv` syscall is abstracted by a trace: a list of integer return
values, each the byte count the OS transferred on that call (a nonpositive
return means an unrecoverable error or a peer-closed condition; a positive
return never exceeds the requested remaining length, enforced here with
`min`). The loop re-invokes the syscall on the remaining suffix until the
full length is transferred or a call fails. The result triple is
(success flag, bytes actually transferred, number of syscalls made);
`length == 0` succeeds immediately with no syscall. -/
def transferAll : Nat → List Int → Bool × Nat × Nat
  | 0, _ => (true, 0, 0)
  | _ + 1, [] => (false, 0, 0)
  | r + 1, k :: ks =>
    if k ≤ 0 then (false, 0, 1)
    else
      let t := min k.toNat (r + 1)
      let rest := transferAll (r + 1 - t) ks
      (rest.1, t + rest.2.1, rest.2.2 + 1)

/-- Modelled from the spec: `internal::SendData(fd, buffer, length)`.
The descriptor and the buffer contents influence only the payload placed
on the wire, never the control flow of the loop, which is `transferAll`. -/
def SendData (fd : Int) (buffer : List Nat) (length : Nat) (trace : List Int) :
    Bool × Nat × Nat :=
  transferAll length trace

/-- Modelled from the spec: `internal::RecvData(fd, buffer, length)`;
the same loop as `SendData`, reading into the buffer instead. -/
def RecvData (fd : Int) (buffer : List Nat) (length : Nat) (trace : List Int) :
    Bool × Nat × Nat :=
  transferAll length trace

/-- A zero-length transfer succeeds at once, with zero syscalls. -/
lemma transferAll_zero (tr : List Int) : transferAll 0 tr = (true, 0, 0) := by
  cases tr <;> rfl

/-- The transfer loop never moves more bytes than requested. -/
lemma transferAll_le (len : Nat) (tr : List Int) :
    (transferAll len tr).2.1 ≤ len := by
  induction tr generalizing len with
  | nil => cases len <;> simp [transferAll]
  | cons k ks ih =>
    cases len with
    | zero => simp [transferAll]
    | succ r =>
      by_cases hk : k ≤ 0
      · simp [transferAll, hk]
      · simp only [transferAll, if_neg hk]
        have h1 := ih (r + 1 - min k.toNat (r + 1))
        have h2 : min k.toNat (r + 1) ≤ r + 1 := Nat.min_le_right _ _
        omega

/-- On success the transfer loop has moved exactly the requested length. -/
lemma transferAll_true_eq (len : Nat) (tr : List Int)
    (h : (transferAll len tr).1 = true) : (transferAll len tr).2.1 = len := by
  induction tr generalizing len with
  | nil =>
    cases len with
    | zero => simp [transferAll]
    | succ r => simp [transferAll] at h
  | cons k ks ih =>
    cases len with
    | zero => simp [transferAll]
    | succ r =>
      by_cases hk : k ≤ 0
      · simp [transferAll, hk] at h
      · simp only [transferAll, if_neg hk] at h ⊢
        have h1 := ih (r + 1 - min k.toNat (r + 1)) h
        have h2 : min k.toNat (r + 1) ≤ r + 1 := Nat.min_le_right _ _
        omega

/-- On failure the transfer loop has moved strictly fewer bytes than
requested. -/
lemma transferAll_false_lt (len : Nat) (tr : List Int)
    (h : (transferAll len tr).1 = false) : (transferAll len tr).2.1 < len := by
  induction tr generalizing len with
  | nil =>
    cases len with
    | zero => simp [transferAll] at h
    | succ r => simp [transferAll]
  | cons k ks ih =>
    cases len with
    | zero => simp [transferAll] at h
    | succ r =>
      by_cases hk : k ≤ 0
      · simp [transferAll, hk]
      · simp only [transferAll, if_neg hk] at h ⊢
        have h1 := ih (r + 1 - min k.toNat (r + 1)) h
        have h2 : min k.toNat (r + 1) ≤ r + 1 := Nat.min_le_right _ _
        omega

/-- **C1.** For every descriptor, buffer, byte length `L ≥ 0` and OS
behaviour (syscall trace), the byte-exact primitives `SendData` and
`RecvData` return `true` if and only if exactly `L` bytes were transferred
(`false` on any short, erroring, or peer-closed termination before
completion), and for `L = 0` they return `true` immediately, having made
zero syscalls. -/
theorem sendData_recvData_exact (fd : Int) (buf : List Nat) (L : Nat)
    (tr : List Int) :
    ((SendData fd buf L tr).1 = true ↔ (SendData fd buf L tr).2.1 = L) ∧
    ((RecvData fd buf L tr).1 = true ↔ (RecvData fd buf L tr).2.1 = L) ∧
    SendData fd buf 0 tr = (true, 0, 0) ∧
    RecvData fd buf 0 tr = (true, 0, 0) := by
  refine ⟨?_, ?_, transferAll_zero tr, transferAll_zero tr⟩ <;>
  · simp only [SendData, RecvData]
    constructor
    · exact transferAll_true_eq L tr
    · intro h
      rcases hb : (transferAll L tr).1 with _ | _
      · exact absurd h (Nat.ne_of_lt (transferAll_false_lt L tr hb))
      · rfl

/-- The "not open" sentinel value of a descriptor field. Modelled from the
spec: the member declarations with their initial values live in
`server.hpp`, which is not under `src/`; spec §4.3 says the design relies
on descriptors having a well-defined "not open" sentinel on which close is
a no-op, the conventional such value being `-1`. -/
def fdSentinel : Int := -1

/-- The process exit status of every fatal path, `exit(EXIT_FAILURE)`. -/
def EXIT_FAILURE : Nat := 1

/-- The `comm::Server` object (fields from its use in `server.cpp`),
together with the process's open-descriptor table, which stands in for the
OS state that `close` acts on. -/
structure Server where
  port : Int
  debug : Bool
  server_fd : Int
  client_fd : Int
  total_bytes_sent : Nat
  openFds : Finset Int
  deriving DecidableEq

/-- `Server::Server(port, debug)`: both descriptor fields start at the
not-open sentinel and the byte counter at 0 (the member initialisers are
in the header; modelled from the spec, §4.3). `fds` is the process's
open-descriptor table at construction time. -/
def Server.construct (port : Int) (debug : Bool) (fds : Finset Int) : Server :=
  { port := port, debug := debug, server_fd := fdSentinel,
    client_fd := fdSentinel, total_bytes_sent := 0, openFds := fds }

/-- POSIX `close(fd)` on the open-descriptor table: removes `fd` when it is
open; on an already-closed or never-opened descriptor it merely returns an
`EBADF` error, changing nothing and never crashing or double-freeing. -/
def closeFd (t : Finset Int) (fd : Int) : Finset Int :=
  t.erase fd

/-- `Server::CloseSocket()` (server.cpp:60-63): `close(server_fd_)` then
`close(client_fd_)`. The descriptor fields themselves are not reset. -/
def Server.CloseSocket (s : Server) : Server :=
  { s with openFds := closeFd (closeFd s.openFds s.server_fd) s.client_fd }

/-- The result of one codec operation: `ok` carries the updated server and
the operation's product (the wire bytes emitted, for sends; the decoded
value plus the unread rest of the stream, for receives); `fatal` carries
the fatal log message, the server after `CloseSocket`, and the process
exit status. There is no other constructor: a codec operation never hands
an error code or a partial result back to its caller. -/
inductive Outcome (α : Type) where
  | ok : Server → α → Outcome α
  | fatal : String → Server → Nat → Outcome α
  deriving DecidableEq

/-- The product of a successful outcome. -/
def okOut {α : Type} : Outcome α → Option α
  | .ok _ a => some a
  | .fatal _ _ _ => none

/-- The server state carried by an outcome (the post-`CloseSocket` state on
the fatal path). -/
def outServer {α : Type} : Outcome α → Server
  | .ok s _ => s
  | .fatal _ s _ => s

/-- The wire bytes emitted by a send outcome (none once the process died). -/
def sentWire : Outcome (List Nat) → List Nat
  | .ok _ w => w
  | .fatal _ _ _ => []

/-- Receiving exactly `len` bytes from a reliable byte stream: the
stream-level view of `RecvData` — success consumes exactly `len` bytes,
and the call fails exactly when the stream is exhausted (peer closed or
errored) first. -/
def recvAllStream (len : Nat) (stream : List Nat) :
    Option (List Nat × List Nat) :=
  if len ≤ stream.length then some (stream.take len, stream.drop len)
  else none

/-- `Server::SendValue(value)` (server.cpp:79-89): one `SendData` of the
4 raw bytes of `value`; on failure log fatal, `CloseSocket`,
`exit(EXIT_FAILURE)`; on success add `sizeof(value) = 4` to the byte
counter. `ok` abstracts the boolean returned by `internal::SendData`. -/
def Server.SendValue (s : Server) (value : Nat) (ok : Bool) :
    Outcome (List Nat) :=
  if ok then
    .ok { s with total_bytes_sent := s.total_bytes_sent + 4 } (u32le value)
  else
    .fatal "Failed to send uint32_t data" s.CloseSocket EXIT_FAILURE

/-- `Server::RecvValue(value)` (server.cpp:91-100): one `RecvData` of 4
bytes into `value`; fatal on failure; the byte counter is untouched. -/
def Server.RecvValue (s : Server) (stream : List Nat) :
    Outcome (Nat × List Nat) :=
  match recvAllStream 4 stream with
  | some (bs, rest) => .ok s (bytesToNatLE bs, rest)
  | none => .fatal "Failed to receive uint32_t data" s.CloseSocket EXIT_FAILURE

/-- `Server::SendVector(vector)` (server.cpp:102-116): computes
`vector_size = vector.size() * sizeof(uint32_t)` as a 64-bit `size_t`,
sends its 8 raw bytes, then sends `vector_size` bytes of element data; the
two `SendData` booleans (abstracted by `ok1`, `ok2`) are combined with
`&=`; on failure log fatal, `CloseSocket`, exit; on success the counter
grows by `sizeof(vector_size) + vector_size`. -/
def Server.SendVector (s : Server) (vector : List Nat) (ok1 ok2 : Bool) :
    Outcome (List Nat) :=
  let vector_size := 4 * vector.length % 2 ^ 64
  if ok1 && ok2 then
    .ok { s with total_bytes_sent := s.total_bytes_sent + (8 + vector_size) }
      (u64le vector_size ++ (vector.map u32le).flatten)
  else
    .fatal "Failed to send vector data" s.CloseSocket EXIT_FAILURE

/-- `Server::RecvVector(vector)` (server.cpp:118-133): initialises
`vector_size` from the caller's vector, overwrites it with an 8-byte
`RecvData`, allocates `r_vector` with `vector_size / sizeof(uint32_t)`
elements, reads `vector_size` bytes into its buffer, and on success moves
`r_vector` into the caller's vector. The two `RecvData` booleans are
combined with `&=`, so any failure is fatal (log, `CloseSocket`, exit) and
a partially-filled buffer is never observable; the caller's `vector`
argument therefore influences nothing on the success path. The byte
counter is untouched. -/
def Server.RecvVector (s : Server) (vector : List Nat) (stream : List Nat) :
    Outcome (List Nat × List Nat) :=
  match recvAllStream 8 stream with
  | none => .fatal "Failed to receive vector data" s.CloseSocket EXIT_FAILURE
  | some (szBytes, rest) =>
    let vector_size := bytesToNatLE szBytes
    match recvAllStream vector_size rest with
    | none => .fatal "Failed to receive vector data" s.CloseSocket EXIT_FAILURE
    | some (payload, rest2) =>
      .ok s (decodeU32s (vector_size / 4) payload, rest2)

/-- `Server::SendArray(std::array<uint32_t, 2>&)` (server.cpp:135-145):
one `SendData` of the `2 * sizeof(uint32_t) = 8` raw bytes of the array,
with no size field; fatal on failure (the source logs the same
"Failed to send vector data" message here); on success the counter grows
by 8. -/
def Server.SendArray2 (s : Server) (array : Nat × Nat) (ok : Bool) :
    Outcome (List Nat) :=
  if ok then
    .ok { s with total_bytes_sent := s.total_bytes_sent + 8 }
      (u32le array.1 ++ u32le array.2)
  else
    .fatal "Failed to send vector data" s.CloseSocket EXIT_FAILURE

/-- `Server::RecvArray(std::array<uint32_t, 2>&)` (server.cpp:147-156):
one `RecvData` of 8 bytes into the array; fatal on failure; the byte
counter is untouched. -/
def Server.RecvArray2 (s : Server) (stream : List Nat) :
    Outcome ((Nat × Nat) × List Nat) :=
  match recvAllStream 8 stream with
  | some (bs, rest) =>
    .ok s ((bytesToNatLE (bs.take 4), bytesToNatLE ((bs.drop 4).take 4)), rest)
  | none => .fatal "Failed to receive vector data" s.CloseSocket EXIT_FAILURE

/-- `Server::SendArray(std::array<uint32_t, 4>&)` (server.cpp:158-168):
one `SendData` of the `4 * sizeof(uint32_t) = 16` raw bytes of the array,
no size field; fatal on failure; on success the counter grows by 16. -/
def Server.SendArray4 (s : Server) (array : Nat × Nat × Nat × Nat)
    (ok : Bool) : Outcome (List Nat) :=
  if ok then
    .ok { s with total_bytes_sent := s.total_bytes_sent + 16 }
      (u32le array.1 ++ u32le array.2.1 ++ u32le array.2.2.1 ++
        u32le array.2.2.2)
  else
    .fatal "Failed to send vector data" s.CloseSocket EXIT_FAILURE

/-- `Server::RecvArray(std::array<uint32_t, 4>&)` (server.cpp:170-179):
one `RecvData` of 16 bytes into the array; fatal on failure; the byte
counter is untouched. -/
def Server.RecvArray4 (s : Server) (stream : List Nat) :
    Outcome ((Nat × Nat × Nat × Nat) × List Nat) :=
  match recvAllStream 16 stream with
  | some (bs, rest) =>
    .ok s ((bytesToNatLE (bs.take 4), bytesToNatLE ((bs.drop 4).take 4),
            bytesToNatLE ((bs.drop 8).take 4),
            bytesToNatLE ((bs.drop 12).take 4)), rest)
  | none => .fatal "Failed to receive vector data" s.CloseSocket EXIT_FAILURE

/-- `Server::GetTotalBytesSent()` (server.cpp:185-187): the counter as the
caller sees it — the accessor's return type is `uint32_t`, so the
accumulated total is reduced modulo `2^32` on the way out. -/
def Server.GetTotalBytesSent (s : Server) : Nat :=
  s.total_bytes_sent % 2 ^ 32

/-- `Server::ClearTotalBytesSent()` (server.cpp:189-191). -/
def Server.ClearTotalBytesSent (s : Server) : Server :=
  { s with total_bytes_sent := 0 }

/-- `Server::GetPortNumber()` (server.cpp:181-183). -/
def Server.GetPortNumber (s : Server) : Int :=
  s.port

/-- One send operation, for reasoning over sequences of sends. -/
inductive SendOp where
  | val : Nat → SendOp
  | vec : List Nat → SendOp
  | arr2 : Nat × Nat → SendOp
  | arr4 : Nat × Nat × Nat × Nat → SendOp
  deriving DecidableEq

/-- Run one send whose underlying transfers all succeed. -/
def runSendOk (s : Server) : SendOp → Server
  | .val v => outServer (s.SendValue v true)
  | .vec vs => outServer (s.SendVector vs true true)
  | .arr2 a => outServer (s.SendArray2 a true)
  | .arr4 a => outServer (s.SendArray4 a true)

/-- Run a sequence of successful sends. -/
def runSends (s : Server) (ops : List SendOp) : Server :=
  ops.foldl runSendOk s

/-- Decoding the 4 native-order bytes of a `uint32_t` recovers the value
modulo `2^32`. -/
lemma bytesToNatLE_u32le (v : Nat) : bytesToNatLE (u32le v) = v % 2 ^ 32 := by
  simp only [bytesToNatLE, u32le, List.foldr]
  omega

/-- Decoding the 8 native-order bytes of a `size_t` recovers the value
modulo `2^64`. -/
lemma bytesToNatLE_u64le (v : Nat) : bytesToNatLE (u64le v) = v % 2 ^ 64 := by
  simp only [bytesToNatLE, u64le, List.foldr]
  omega

/-- The 8-byte layout only sees the value modulo `2^64`. -/
lemma u64le_mod (v : Nat) : u64le (v % 2 ^ 64) = u64le v := by
  simp only [u64le, List.cons.injEq, and_true]
  omega

/-- The raw element data of a vector of `N` scalars occupies `4*N` bytes. -/
lemma enc32_length (vs : List Nat) :
    ((vs.map u32le).flatten).length = 4 * vs.length := by
  induction vs with
  | nil => simp
  | cons v vs ih => simp [u32le, ih]; omega

/-- Reinterpreting a buffer as `n` consecutive `uint32_t` values yields
exactly `n` values. -/
lemma decodeU32s_length (n : Nat) (bs : List Nat) :
    (decodeU32s n bs).length = n := by
  induction n generalizing bs with
  | zero => simp [decodeU32s]
  | succ n ih => simp [decodeU32s, ih]

/-- Reinterpreting the raw bytes of `N` scalars (each below `2^32`)
recovers exactly those scalars, whatever trails them in the buffer. -/
lemma decodeU32s_enc (vs extra : List Nat) (h : ∀ v ∈ vs, v < 2 ^ 32) :
    decodeU32s vs.length ((vs.map u32le).flatten ++ extra) = vs := by
  induction vs with
  | nil => simp [decodeU32s]
  | cons v vs ih =>
    have hlen : (u32le v).length = 4 := rfl
    simp only [List.map_cons, List.flatten_cons, List.length_cons,
      List.append_assoc, decodeU32s]
    rw [← hlen, List.take_left, List.drop_left]
    rw [bytesToNatLE_u32le, Nat.mod_eq_of_lt (h v (by simp))]
    rw [ih (fun x hx => h x (by simp [hx]))]

/-- Reading from a reliable stream that starts with a block of exactly the
requested length returns that block and the rest. -/
lemma recvAllStream_exact (l rest : List Nat) :
    recvAllStream l.length (l ++ rest) = some (l, rest) := by
  simp [recvAllStream, List.take_left, List.drop_left]

/-- A `recvAllStream` block of exactly the stated length splits off. -/
lemma recvAllStream_append (n : Nat) (l rest : List Nat)
    (h : l.length = n) : recvAllStream n (l ++ rest) = some (l, rest) := by
  subst h
  exact recvAllStream_exact l rest

/-- The wire bytes of a successful `SendVector`. -/
lemma sentWire_sendVector (s : Server) (vs : List Nat) :
    sentWire (s.SendVector vs true true) =
      u64le (4 * vs.length) ++ (vs.map u32le).flatten := by
  simp [Server.SendVector, sentWire]
  rw [show (18446744073709551616 : Nat) = 2 ^ 64 by norm_num, u64le_mod]

/-- **C2.** For every vector of `N` scalar values, sending it with
`SendVector` and receiving it on the peer with `RecvVector` yields a
vector of the same `N` values in the same order: with both underlying
transfers succeeding, the receiver decodes exactly the sent vector from
the emitted wire bytes and leaves any trailing stream data unread. The
bounds are those `uint32_t` and `std::vector` impose on the C++ side. -/
theorem sendVector_recvVector_roundtrip (s s' : Server)
    (caller vs extra : List Nat) (hv : ∀ v ∈ vs, v < 2 ^ 32)
    (hn : vs.length < 2 ^ 62) :
    s'.RecvVector caller (sentWire (s.SendVector vs true true) ++ extra) =
      Outcome.ok s' (vs, extra) := by
  have hsz : 4 * vs.length < 2 ^ 64 := by omega
  have h1 : recvAllStream 8 (sentWire (s.SendVector vs true true) ++ extra) =
      some (u64le (4 * vs.length), (vs.map u32le).flatten ++ extra) := by
    rw [sentWire_sendVector, List.append_assoc]
    exact recvAllStream_append 8 _ _ rfl
  have h2 : recvAllStream (bytesToNatLE (u64le (4 * vs.length)))
      ((vs.map u32le).flatten ++ extra) =
      some ((vs.map u32le).flatten, extra) := by
    rw [bytesToNatLE_u64le, Nat.mod_eq_of_lt hsz]
    exact recvAllStream_append _ _ _ (enc32_length vs)
  have h3 : bytesToNatLE (u64le (4 * vs.length)) / 4 = vs.length := by
    rw [bytesToNatLE_u64le, Nat.mod_eq_of_lt hsz]
    omega
  have h5 : decodeU32s vs.length ((vs.map u32le).flatten) = vs := by
    have hd := decodeU32s_enc vs [] hv
    rwa [List.append_nil] at hd
  simp only [Server.RecvVector, h1, h2, h3, h5]

/-- **C3.** `SendVector` on a vector of `N` values emits exactly an 8-byte
byte-count encoding `4*N` (whenever `4*N` fits the 64-bit count field,
always true of a real `std::vector<uint32_t>`), followed by the `4*N` raw
native-order bytes of the `N` scalars; in particular for `[1, 2, 3]` the
wire is `0C 00 00 00 00 00 00 00` followed by the three 4-byte encodings
of 1, 2, 3. -/
theorem sendVector_wire_format (s : Server) (vs : List Nat) :
    sentWire (s.SendVector vs true true) =
      u64le (4 * vs.length) ++ (vs.map u32le).flatten ∧
    (4 * vs.length < 2 ^ 64 →
      bytesToNatLE ((sentWire (s.SendVector vs true true)).take 8) =
        4 * vs.length) ∧
    (sentWire (s.SendVector vs true true)).drop 8 =
      (vs.map u32le).flatten ∧
    (sentWire (s.SendVector vs true true)).length = 8 + 4 * vs.length ∧
    sentWire (s.SendVector [1, 2, 3] true true) =
      [0x0C, 0, 0, 0, 0, 0, 0, 0,
       1, 0, 0, 0, 2, 0, 0, 0, 3, 0, 0, 0] := by
  have h8 : (u64le (4 * vs.length)).length = 8 := rfl
  refine ⟨sentWire_sendVector s vs, ?_, ?_, ?_, ?_⟩
  · intro hsz
    rw [sentWire_sendVector, ← h8, List.take_left, bytesToNatLE_u64le,
      Nat.mod_eq_of_lt hsz]
  · rw [sentWire_sendVector, ← h8, List.drop_left]
  · rw [sentWire_sendVector, List.length_append, h8, enc32_length]
  · rw [sentWire_sendVector]
    decide

/-- Witness for C2 at the spec's own example `[1, 2, 3]`. -/
theorem sendVector_recvVector_roundtrip_witness :
    (Server.construct 9000 false ∅).RecvVector []
        (sentWire ((Server.construct 9000 true ∅).SendVector [1, 2, 3]
          true true) ++ [7]) =
      Outcome.ok (Server.construct 9000 false ∅) ([1, 2, 3], [7]) :=
  sendVector_recvVector_roundtrip (Server.construct 9000 true ∅)
    (Server.construct 9000 false ∅) [] [1, 2, 3] [7]
    (by decide) (by decide)

/-- Witness for C3's conditional byte-count clause at `[1, 2, 3]`. -/
theorem sendVector_wire_format_witness :
    4 * ([1, 2, 3] : List Nat).length < 2 ^ 64 ∧
    bytesToNatLE ((sentWire ((Server.construct 9000 false ∅).SendVector
        [1, 2, 3] true true)).take 8) = 4 * ([1, 2, 3] : List Nat).length :=
  ⟨by decide,
    (sendVector_wire_format (Server.construct 9000 false ∅) [1, 2, 3]).2.1
      (by decide)⟩

/-- **C4 (amended).** Starting from a freshly reset counter,
`GetTotalBytesSent` returns exactly 4 after a successful `SendValue`,
exactly `(8 + 4*N) % 2^32` after a successful `SendVector` of `N` values
(which is exactly `8 + 4*N` whenever that total is below `2^32`), exactly
8 after a successful `SendArray` of 2 values, exactly 16 after a
successful `SendArray` of 4 values, and exactly 0 immediately after
`ClearTotalBytesSent` — the reduction modulo `2^32` being forced by the
accessor's `uint32_t` return type. -/
theorem totalBytesSent_accounting (s : Server) (v : Nat) (vs : List Nat)
    (a : Nat × Nat) (b : Nat × Nat × Nat × Nat) :
    (outServer (s.ClearTotalBytesSent.SendValue v true)).GetTotalBytesSent
      = 4 ∧
    (outServer (s.ClearTotalBytesSent.SendVector vs true
        true)).GetTotalBytesSent = (8 + 4 * vs.length) % 2 ^ 32 ∧
    (outServer (s.ClearTotalBytesSent.SendArray2 a true)).GetTotalBytesSent
      = 8 ∧
    (outServer (s.ClearTotalBytesSent.SendArray4 b true)).GetTotalBytesSent
      = 16 ∧
    s.ClearTotalBytesSent.GetTotalBytesSent = 0 := by
  refine ⟨rfl, ?_, rfl, rfl, rfl⟩
  simp [Server.SendVector, Server.ClearTotalBytesSent, outServer,
    Server.GetTotalBytesSent]
  omega

/-- The byte counter after a `SendVector` whose two transfers succeed. -/
lemma sendVector_ok_total (s : Server) (vs : List Nat) :
    (outServer (s.SendVector vs true true)).total_bytes_sent =
      s.total_bytes_sent + (8 + 4 * vs.length % 2 ^ 64) := by
  simp [Server.SendVector, outServer]

/-- **C4 counterexample.** The claim as stated fails at a vector of
`N = 2^30` values: the sent byte total is `8 + 4*N = 8 + 2^32`, but
`GetTotalBytesSent`, returning `uint32_t`, yields `8`, not `8 + 4*N`. -/
theorem totalBytesSent_accounting_cex :
    (outServer ((Server.construct 9000 false ∅).ClearTotalBytesSent.SendVector
        (List.replicate (2 ^ 30) 0) true true)).GetTotalBytesSent ≠
      8 + 4 * (List.replicate (2 ^ 30) (0 : Nat)).length := by
  rw [Server.GetTotalBytesSent, sendVector_ok_total, List.length_replicate]
  norm_num [Server.ClearTotalBytesSent, Server.construct]

/-- **C5.** For every codec operation (`SendValue`, `RecvValue`,
`SendVector`, `RecvVector`, `SendArray`, `RecvArray`), if the underlying
byte transfer reports failure, the operation produces exactly the fatal
outcome: the fatal log message, the server after `CloseSocket` (both
descriptors removed from the open table), and process exit status
`EXIT_FAILURE` — never an `ok` outcome carrying a partial result or an
error code. For sends the transfer booleans are abstract; for receives a
transfer fails exactly when the stream is too short. -/
theorem codec_failure_fatal (s : Server) (v : Nat)
    (vs caller stream : List Nat) (a : Nat × Nat)
    (b : Nat × Nat × Nat × Nat) :
    s.SendValue v false =
      Outcome.fatal "Failed to send uint32_t data" s.CloseSocket
        EXIT_FAILURE ∧
    (∀ ok1 ok2 : Bool, (ok1 && ok2) = false →
      s.SendVector vs ok1 ok2 =
        Outcome.fatal "Failed to send vector data" s.CloseSocket
          EXIT_FAILURE) ∧
    s.SendArray2 a false =
      Outcome.fatal "Failed to send vector data" s.CloseSocket
        EXIT_FAILURE ∧
    s.SendArray4 b false =
      Outcome.fatal "Failed to send vector data" s.CloseSocket
        EXIT_FAILURE ∧
    (stream.length < 4 →
      s.RecvValue stream =
        Outcome.fatal "Failed to receive uint32_t data" s.CloseSocket
          EXIT_FAILURE) ∧
    (stream.length < 8 →
      s.RecvVector caller stream =
        Outcome.fatal "Failed to receive vector data" s.CloseSocket
          EXIT_FAILURE) ∧
    (8 ≤ stream.length →
      stream.length < 8 + bytesToNatLE (stream.take 8) →
      s.RecvVector caller stream =
        Outcome.fatal "Failed to receive vector data" s.CloseSocket
          EXIT_FAILURE) ∧
    (stream.length < 8 →
      s.RecvArray2 stream =
        Outcome.fatal "Failed to receive vector data" s.CloseSocket
          EXIT_FAILURE) ∧
    (stream.length < 16 →
      s.RecvArray4 stream =
        Outcome.fatal "Failed to receive vector data" s.CloseSocket
          EXIT_FAILURE) ∧
    s.server_fd ∉ s.CloseSocket.openFds ∧
    s.client_fd ∉ s.CloseSocket.openFds := by
  refine ⟨by simp [Server.SendValue], ?_, by simp [Server.SendArray2],
    by simp [Server.SendArray4], ?_, ?_, ?_, ?_, ?_, ?_, ?_⟩
  · intro ok1 ok2 h
    simp [Server.SendVector, h]
  · intro h
    simp [Server.RecvValue, recvAllStream, show ¬ 4 ≤ stream.length by omega]
  · intro h
    simp [Server.RecvVector, recvAllStream,
      show ¬ 8 ≤ stream.length by omega]
  · intro h8 hshort
    have h1 : recvAllStream 8 stream =
        some (stream.take 8, stream.drop 8) := by
      simp [recvAllStream, h8]
    have h2 : recvAllStream (bytesToNatLE (stream.take 8))
        (stream.drop 8) = none := by
      simp [recvAllStream, List.length_drop]
      omega
    simp only [Server.RecvVector, h1, h2]
  · intro h
    simp [Server.RecvArray2, recvAllStream,
      show ¬ 8 ≤ stream.length by omega]
  · intro h
    simp [Server.RecvArray4, recvAllStream,
      show ¬ 16 ≤ stream.length by omega]
  · simp [Server.CloseSocket, closeFd, Finset.mem_erase]
  · simp [Server.CloseSocket, closeFd, Finset.mem_erase]

/-- Witness for C5: concrete failing transfers for a failed `SendVector`,
a `RecvValue` on an empty stream, and a `RecvVector` whose peer declared
9 payload bytes but closed after sending none. -/
theorem codec_failure_fatal_witness :
    (((false : Bool) && true) = false ∧
      (Server.construct 9000 false {3, 4}).SendVector [1] false true =
        Outcome.fatal "Failed to send vector data"
          (Server.construct 9000 false {3, 4}).CloseSocket EXIT_FAILURE) ∧
    (([] : List Nat).length < 4 ∧
      (Server.construct 9000 false {3, 4}).RecvValue [] =
        Outcome.fatal "Failed to receive uint32_t data"
          (Server.construct 9000 false {3, 4}).CloseSocket EXIT_FAILURE) ∧
    (8 ≤ ([9, 0, 0, 0, 0, 0, 0, 0] : List Nat).length ∧
      ([9, 0, 0, 0, 0, 0, 0, 0] : List Nat).length <
        8 + bytesToNatLE (([9, 0, 0, 0, 0, 0, 0, 0] : List Nat).take 8) ∧
      (Server.construct 9000 false {3, 4}).RecvVector []
          [9, 0, 0, 0, 0, 0, 0, 0] =
        Outcome.fatal "Failed to receive vector data"
          (Server.construct 9000 false {3, 4}).CloseSocket EXIT_FAILURE) :=
  ⟨⟨rfl,
    (codec_failure_fatal (Server.construct 9000 false {3, 4}) 0 [1] [] []
      (0, 0) (0, 0, 0, 0)).2.1 false true rfl⟩,
   ⟨by decide,
    (codec_failure_fatal (Server.construct 9000 false {3, 4}) 0 [1] [] []
      (0, 0) (0, 0, 0, 0)).2.2.2.2.1 (by decide)⟩,
   ⟨by decide, by decide,
    (codec_failure_fatal (Server.construct 9000 false {3, 4}) 0 [1] []
      [9, 0, 0, 0, 0, 0, 0, 0] (0, 0) (0, 0, 0, 0)).2.2.2.2.2.2.1
      (by decide) (by decide)⟩⟩

/-- **C6.** For every fixed tuple of exactly 2 (resp. 4) scalar values,
`SendArray` emits exactly 8 (resp. 16) bytes on the wire with no length
field of any kind, and the peer's matching `RecvArray` reconstructs
exactly those values in order, leaving any trailing stream data unread. -/
theorem sendArray_recvArray_roundtrip (s s' : Server)
    (a1 a2 b1 b2 b3 b4 : Nat) (extra : List Nat)
    (ha1 : a1 < 2 ^ 32) (ha2 : a2 < 2 ^ 32) (hb1 : b1 < 2 ^ 32)
    (hb2 : b2 < 2 ^ 32) (hb3 : b3 < 2 ^ 32) (hb4 : b4 < 2 ^ 32) :
    (sentWire (s.SendArray2 (a1, a2) true)).length = 8 ∧
    (sentWire (s.SendArray4 (b1, b2, b3, b4) true)).length = 16 ∧
    s'.RecvArray2 (sentWire (s.SendArray2 (a1, a2) true) ++ extra) =
      Outcome.ok s' ((a1, a2), extra) ∧
    s'.RecvArray4 (sentWire (s.SendArray4 (b1, b2, b3, b4) true) ++ extra) =
      Outcome.ok s' ((b1, b2, b3, b4), extra) := by
  have hw2 : sentWire (s.SendArray2 (a1, a2) true) = u32le a1 ++ u32le a2 := by
    simp [Server.SendArray2, sentWire]
  have hw4 : sentWire (s.SendArray4 (b1, b2, b3, b4) true) =
      u32le b1 ++ u32le b2 ++ u32le b3 ++ u32le b4 := by
    simp [Server.SendArray4, sentWire]
  have h2 : recvAllStream 8 ((u32le a1 ++ u32le a2) ++ extra) =
      some (u32le a1 ++ u32le a2, extra) :=
    recvAllStream_append 8 _ _ (by simp [u32le])
  have h4 : recvAllStream 16
      ((u32le b1 ++ u32le b2 ++ u32le b3 ++ u32le b4) ++ extra) =
      some (u32le b1 ++ u32le b2 ++ u32le b3 ++ u32le b4, extra) :=
    recvAllStream_append 16 _ _ (by simp [u32le])
  refine ⟨by rw [hw2]; simp [u32le], by rw [hw4]; simp [u32le], ?_, ?_⟩
  · rw [hw2]
    simp only [Server.RecvArray2, h2]
    simp [u32le, bytesToNatLE]
    omega
  · rw [hw4]
    simp only [Server.RecvArray4, h4]
    simp [u32le, bytesToNatLE]
    omega

/-- Witness for C6 at the tuples `(1, 2)` and `(1, 2, 3, 4)`. -/
theorem sendArray_recvArray_roundtrip_witness :
    (1 : Nat) < 2 ^ 32 ∧ (2 : Nat) < 2 ^ 32 ∧ (3 : Nat) < 2 ^ 32 ∧
    (4 : Nat) < 2 ^ 32 ∧
    (Server.construct 9000 false ∅).RecvArray2
        (sentWire ((Server.construct 9000 true ∅).SendArray2 (1, 2) true) ++
          []) =
      Outcome.ok (Server.construct 9000 false ∅) ((1, 2), []) ∧
    (Server.construct 9000 false ∅).RecvArray4
        (sentWire ((Server.construct 9000 true ∅).SendArray4 (1, 2, 3, 4)
          true) ++ []) =
      Outcome.ok (Server.construct 9000 false ∅) ((1, 2, 3, 4), []) :=
  ⟨by decide, by decide, by decide, by decide,
   (sendArray_recvArray_roundtrip (Server.construct 9000 true ∅)
     (Server.construct 9000 false ∅) 1 2 1 2 3 4 [] (by decide) (by decide)
     (by decide) (by decide) (by decide) (by decide)).2.2.1,
   (sendArray_recvArray_roundtrip (Server.construct 9000 true ∅)
     (Server.construct 9000 false ∅) 1 2 1 2 3 4 [] (by decide) (by decide)
     (by decide) (by decide) (by decide) (by decide)).2.2.2⟩

/-- **C7.** Closing the connection is idempotent: a second `CloseSocket`
(e.g. the destructor's close after an explicit close) leaves the
open-descriptor table exactly as the first left it, and on a
freshly-constructed server whose descriptors still hold the not-open
sentinel, `CloseSocket` changes nothing at all — `close` is a harmless
no-op on a descriptor that is not in the open table, so no crash and no
double-free can occur. -/
theorem CloseSocket_idempotent (s : Server) (port : Int) (debug : Bool)
    (fds : Finset Int) (hwf : ∀ fd ∈ fds, 0 ≤ fd) :
    s.CloseSocket.CloseSocket = s.CloseSocket ∧
    (Server.construct port debug fds).CloseSocket =
      Server.construct port debug fds := by
  constructor
  · obtain ⟨p, d, sf, cf, tot, ofds⟩ := s
    simp only [Server.CloseSocket, closeFd]
    congr 1
    ext x
    simp only [Finset.mem_erase]
    tauto
  · have hmem : fdSentinel ∉ fds := by
      intro hm
      have h0 := hwf _ hm
      simp [fdSentinel] at h0
    simp only [Server.construct, Server.CloseSocket, closeFd]
    congr 1
    rw [Finset.erase_eq_of_not_mem hmem, Finset.erase_eq_of_not_mem hmem]

/-- Witness for C7: a connected server with descriptors 3 and 4, and a
never-opened server whose table holds only the unrelated descriptor 5. -/
theorem CloseSocket_idempotent_witness :
    (∀ fd ∈ ({5} : Finset Int), 0 ≤ fd) ∧
    (Server.mk 9000 false 3 4 0 {3, 4}).CloseSocket.CloseSocket =
      (Server.mk 9000 false 3 4 0 {3, 4}).CloseSocket ∧
    (Server.construct 9000 false {5}).CloseSocket =
      Server.construct 9000 false {5} :=
  ⟨by decide,
   (CloseSocket_idempotent (Server.mk 9000 false 3 4 0 {3, 4}) 9000 false
     {5} (by decide)).1,
   (CloseSocket_idempotent (Server.mk 9000 false 3 4 0 {3, 4}) 9000 false
     {5} (by decide)).2⟩

/-- **C8.** The byte counter is never touched by a receive: for every
`RecvValue`, `RecvVector` and `RecvArray` call, on either outcome (the
success path as well as the fatal path, whose `CloseSocket` also leaves
the counter alone), `GetTotalBytesSent` is the same after the call as
before it. -/
theorem recv_preserves_totalBytesSent (s : Server)
    (caller stream : List Nat) :
    (outServer (s.RecvValue stream)).GetTotalBytesSent =
      s.GetTotalBytesSent ∧
    (outServer (s.RecvVector caller stream)).GetTotalBytesSent =
      s.GetTotalBytesSent ∧
    (outServer (s.RecvArray2 stream)).GetTotalBytesSent =
      s.GetTotalBytesSent ∧
    (outServer (s.RecvArray4 stream)).GetTotalBytesSent =
      s.GetTotalBytesSent := by
  refine ⟨?_, ?_, ?_, ?_⟩
  · rcases h : recvAllStream 4 stream with _ | ⟨bs, rest⟩ <;>
      simp [Server.RecvValue, h, outServer, Server.CloseSocket,
        Server.GetTotalBytesSent]
  · rcases h : recvAllStream 8 stream with _ | ⟨bs, rest⟩
    · simp [Server.RecvVector, h, outServer, Server.CloseSocket,
        Server.GetTotalBytesSent]
    · rcases h2 : recvAllStream (bytesToNatLE bs) rest with _ | ⟨pl, r2⟩ <;>
        simp [Server.RecvVector, h, h2, outServer, Server.CloseSocket,
          Server.GetTotalBytesSent]
  · rcases h : recvAllStream 8 stream with _ | ⟨bs, rest⟩ <;>
      simp [Server.RecvArray2, h, outServer, Server.CloseSocket,
        Server.GetTotalBytesSent]
  · rcases h : recvAllStream 16 stream with _ | ⟨bs, rest⟩ <;>
      simp [Server.RecvArray4, h, outServer, Server.CloseSocket,
        Server.GetTotalBytesSent]

/-- One successful send never shrinks the accumulated byte total. -/
lemma runSendOk_total_mono (s : Server) (op : SendOp) :
    s.total_bytes_sent ≤ (runSendOk s op).total_bytes_sent := by
  cases op <;>
    simp [runSendOk, Server.SendValue, Server.SendVector, Server.SendArray2,
      Server.SendArray4, outServer]

/-- The byte counter after a `SendValue` whose transfer succeeds. -/
lemma sendValue_ok_total (s : Server) (v : Nat) :
    (outServer (s.SendValue v true)).total_bytes_sent =
      s.total_bytes_sent + 4 := by
  simp [Server.SendValue, outServer]

/-- **C9 (amended).** The accumulated byte total is a monotonic
accumulator: across every sequence of successful send operations (no
reset), it never decreases; the `uint32_t` value returned by
`GetTotalBytesSent` equals this total reduced modulo `2^32`, and can
therefore wrap — and so decrease — once the total passes `2^32`. -/
theorem sends_counter_monotone (s : Server) (ops : List SendOp) :
    s.total_bytes_sent ≤ (runSends s ops).total_bytes_sent ∧
    (runSends s ops).GetTotalBytesSent =
      (runSends s ops).total_bytes_sent % 2 ^ 32 := by
  refine ⟨?_, rfl⟩
  induction ops generalizing s with
  | nil => exact le_refl _
  | cons op ops ih =>
    exact le_trans (runSendOk_total_mono s op) (ih (runSendOk s op))

/-- A single successful `SendVector` of `2^30 - 3` zeros drives the byte
total of a fresh server to `2^32 - 4`: the state used by the C9
counterexample below is reachable by successful sends alone. -/
lemma wrap_state_reachable :
    (runSends (Server.construct 9000 false ∅)
      [SendOp.vec (List.replicate (2 ^ 30 - 3) 0)]).total_bytes_sent =
      2 ^ 32 - 4 := by
  show (outServer ((Server.construct 9000 false ∅).SendVector
    (List.replicate (2 ^ 30 - 3) 0) true true)).total_bytes_sent =
    2 ^ 32 - 4
  rw [sendVector_ok_total, List.length_replicate]
  norm_num [Server.construct]

/-- **C9 counterexample.** The claim as stated fails once the accumulated
total crosses `2^32`: from a server whose byte total is `2^32 - 4` (the
total reached by the successful sends of `wrap_state_reachable`), one more
successful `SendValue` makes `GetTotalBytesSent` drop from `2^32 - 4` to
0, because its `uint32_t` return wraps. -/
theorem sends_counter_monotone_cex :
    ¬ ((runSends (Server.mk 9000 false 3 4 (2 ^ 32 - 4) ∅)
          []).GetTotalBytesSent ≤
        (runSends (Server.mk 9000 false 3 4 (2 ^ 32 - 4) ∅)
          [SendOp.val 5]).GetTotalBytesSent) := by
  decide

/-- **C10.** On a successful `RecvVector`, the output vector's length is
the peer-declared 8-byte byte-count divided by 4 with integer division,
regardless of the length or contents of the vector the caller passed in
(the two applications below are equal outright), and exactly the declared
number of bytes is consumed from the stream for the payload. -/
theorem recvVector_declared_length (s : Server)
    (caller caller2 stream : List Nat)
    (h : 8 + bytesToNatLE (stream.take 8) ≤ stream.length) :
    s.RecvVector caller stream = s.RecvVector caller2 stream ∧
    s.RecvVector caller stream =
      Outcome.ok s
        (decodeU32s (bytesToNatLE (stream.take 8) / 4)
          ((stream.drop 8).take (bytesToNatLE (stream.take 8))),
         (stream.drop 8).drop (bytesToNatLE (stream.take 8))) ∧
    (decodeU32s (bytesToNatLE (stream.take 8) / 4)
        ((stream.drop 8).take (bytesToNatLE (stream.take 8)))).length =
      bytesToNatLE (stream.take 8) / 4 := by
  refine ⟨rfl, ?_, decodeU32s_length _ _⟩
  have h8 : recvAllStream 8 stream =
      some (stream.take 8, stream.drop 8) := by
    simp [recvAllStream, show 8 ≤ stream.length by omega]
  have hp : recvAllStream (bytesToNatLE (stream.take 8)) (stream.drop 8) =
      some ((stream.drop 8).take (bytesToNatLE (stream.take 8)),
        (stream.drop 8).drop (bytesToNatLE (stream.take 8))) := by
    simp [recvAllStream, List.length_drop]
    omega
  simp only [Server.RecvVector, h8, hp]

/-- Witness for C10: the peer declares 8 payload bytes, so the receiver
produces `8 / 4 = 2` values and consumes exactly 8 payload bytes. -/
theorem recvVector_declared_length_witness :
    8 + bytesToNatLE (([8, 0, 0, 0, 0, 0, 0, 0, 1, 0, 0, 0, 2, 0, 0, 0] :
        List Nat).take 8) ≤
      ([8, 0, 0, 0, 0, 0, 0, 0, 1, 0, 0, 0, 2, 0, 0, 0] : List Nat).length ∧
    (Server.construct 9000 false ∅).RecvVector [7, 7, 7]
        [8, 0, 0, 0, 0, 0, 0, 0, 1, 0, 0, 0, 2, 0, 0, 0] =
      (Server.construct 9000 false ∅).RecvVector []
        [8, 0, 0, 0, 0, 0, 0, 0, 1, 0, 0, 0, 2, 0, 0, 0] :=
  ⟨by decide,
   (recvVector_declared_length (Server.construct 9000 false ∅) [7, 7, 7] []
     [8, 0, 0, 0, 0, 0, 0, 0, 1, 0, 0, 0, 2, 0, 0, 0] (by decide)).1⟩

end Comm
